import Mathlib

/-!
Verification of the error-handling subsystem of the `rust_study` repository
(`src/error_handling/mod.rs`): the error taxonomy (`MathError`, `AppError`),
the domain operations `divide` and `sqrt`, the short-circuiting pipeline
`complex_operation`, and the resilient config loader `Config::from_file`.

Modelling conventions:
* Rust `f64` values are modelled by `F64`: NaN plus exact rational values.
  Rounding of arithmetic is not modelled (the claims only exercise values on
  which IEEE arithmetic is exact); IEEE comparison semantics (NaN compares
  false under `<` and `==`) are modelled faithfully, since the guards of the
  domain operations depend on them.
* `Result<T, E>` is `Except E T`; the `?` operator is monadic bind composed
  with `Except.mapError` applied to the relevant `From` conversion, exactly
  mirroring which `From` impl Rust selects at each `?` site.
* File I/O (the Storage collaborator) is a parameter: a function receives the
  `Except IoError String` outcome of `std::fs::read_to_string` instead of
  touching a file system.
* The standard-library parsers `f64::from_str`, `u16::from_str` and
  `bool::from_str` are external collaborators; they are modelled on the
  fragment the claims exercise (plain decimal literals, ASCII digits,
  the exact words true/false).
* String helpers (`str::lines`, `str::split`, `str::trim`) are defined by
  structural recursion over `List Char` so that every definition reduces in
  the kernel; they follow the Rust semantics: `lines` drops a final empty
  segment and strips a trailing CR, `split` splits on every occurrence of
  the separator, `trim` strips leading/trailing whitespace.
-/

namespace ErrorHandling

/-- Model of an IEEE-754 double: NaN or an exact (finite) rational value. -/
inductive F64 where
  | nan : F64
  | num : ℚ → F64
deriving DecidableEq, Repr

/-- IEEE `==` on doubles: NaN is equal to nothing (not even itself). -/
def F64.beq : F64 → F64 → Bool
  | .nan, _ => false
  | _, .nan => false
  | .num a, .num b => decide (a = b)

/-- IEEE `<` on doubles: any comparison involving NaN is false. -/
def F64.blt : F64 → F64 → Bool
  | .nan, _ => false
  | _, .nan => false
  | .num a, .num b => decide (a < b)

/-- IEEE division on the modelled fragment: NaN propagates; division of
finite values is exact rational division.  Division by (rational) zero is
modelled as NaN; it is unreachable through `divide`, whose guard rejects
every divisor that compares equal to zero. -/
def F64.div : F64 → F64 → F64
  | .nan, _ => .nan
  | _, .nan => .nan
  | .num a, .num b => if b = 0 then .nan else .num (a / b)

/-- IEEE square root on the modelled fragment: NaN propagates, negative
arguments give NaN, and nonnegative rationals are sent to `Rat.sqrt`
(exact on perfect squares, which is where the pipeline evaluates it;
`sqrt`'s guard makes the negative branch unreachable anyway). -/
def F64.sqrtF : F64 → F64
  | .nan => .nan
  | .num q => if q < 0 then .nan else .num (Rat.sqrt q)

/-- `enum MathError` from src/error_handling/mod.rs (lines 130-135). -/
inductive MathError where
  | DivisionByZero : MathError
  | NegativeSquareRoot : MathError
  | Overflow : MathError
deriving DecidableEq, Repr

/-- Model of `std::io::Error`: the descriptive content only. -/
structure IoError where
  msg : String
deriving DecidableEq, Repr

/-- `enum AppError` (lines 188-194): the unified taxonomy.  The payloads of
the foreign parse errors are modelled by the offending text (their
descriptive content); `Math` carries the `MathError` exactly as in the
source.  The spec calls the `Math` case `Domain`. -/
inductive AppError where
  | Io : IoError → AppError
  | Parse : String → AppError
  | ParseFloat : String → AppError
  | Math : MathError → AppError
deriving DecidableEq, Repr

/-- `fn divide` (lines 149-155): fail with `DivisionByZero` when `b == 0.0`
(IEEE equality), otherwise return `a / b`. -/
def divide (a b : F64) : Except MathError F64 :=
  if F64.beq b (F64.num 0) then Except.error MathError.DivisionByZero
  else Except.ok (F64.div a b)

/-- `fn sqrt` (lines 157-163): fail with `NegativeSquareRoot` when
`x < 0.0` (IEEE less-than), otherwise return `x.sqrt()`. -/
def sqrt (x : F64) : Except MathError F64 :=
  if F64.blt x (F64.num 0) then Except.error MathError.NegativeSquareRoot
  else Except.ok (F64.sqrtF x)

/-! ### String helpers (Rust std semantics, kernel-reducible) -/

/-- Split a character list at every occurrence of `c`
(Rust `str::split(c)` semantics: n separators give n+1 pieces,
possibly empty). -/
def splitOnChar (c : Char) : List Char → List (List Char)
  | [] => [[]]
  | x :: xs =>
    if x = c then [] :: splitOnChar c xs
    else
      match splitOnChar c xs with
      | [] => [[x]]
      | g :: gs => (x :: g) :: gs

/-- Rust `str::split('=')`, producing strings. -/
def splitEq (s : String) : List String :=
  (splitOnChar '=' s.data).map String.mk

/-- ASCII whitespace (the fragment of `char::is_whitespace` the claims
exercise). -/
def isWS (c : Char) : Bool :=
  c = ' ' || c = '\t' || c = '\n' || c = '\r'

/-- Rust `str::trim`: strip leading and trailing whitespace. -/
def trimS (s : String) : String :=
  String.mk (((s.data.dropWhile isWS).reverse.dropWhile isWS).reverse)

/-- Strip one trailing CR (Rust `str::lines` treats `\r\n` as a line
terminator). -/
def stripCR (cs : List Char) : List Char :=
  match cs.reverse with
  | '\r' :: rest => rest.reverse
  | _ => cs

/-- Rust `str::lines`: split on LF, drop the empty segment a trailing LF
would produce, strip a trailing CR from each line. -/
def rustLines (s : String) : List String :=
  let parts := splitOnChar '\n' s.data
  let parts := if parts.getLast? = some [] then parts.dropLast else parts
  (parts.map stripCR).map String.mk

/-! ### Models of the std parsers (external collaborators) -/

/-- Value of an all-digit list must be checked separately; this just
accumulates.  Helper for the numeric parsers. -/
def digitsVal (cs : List Char) : Nat :=
  cs.foldl (fun n c => n * 10 + (c.toNat - 48)) 0

/-- Parse a nonempty all-ASCII-digit list (helper for `u16::from_str`). -/
def natOfDigits (cs : List Char) : Option Nat :=
  if cs.isEmpty then none
  else if cs.all Char.isDigit then some (digitsVal cs) else none

/-- Model of `u16::from_str`: optional leading `+`, then at least one ASCII
digit, value below 2^16; everything else fails. -/
def parseU16 (s : String) : Option Nat :=
  let core := fun (cs : List Char) =>
    (natOfDigits cs).bind (fun n => if n < 65536 then some n else none)
  match s.data with
  | '+' :: rest => core rest
  | cs => core cs

/-- Model of `bool::from_str`: exactly the words `true` and `false`. -/
def parseBool (s : String) : Option Bool :=
  if s = "true" then some true
  else if s = "false" then some false
  else none

/-- Unsigned decimal literal `digits [. digits]` with at least one digit,
as an exact rational (helper for `f64::from_str`). -/
def parseDecimal (cs : List Char) : Option ℚ :=
  let ip := cs.takeWhile (fun c => c ≠ '.')
  let rest := cs.dropWhile (fun c => c ≠ '.')
  match rest with
  | [] => (natOfDigits ip).map (fun n => (n : ℚ))
  | _ :: frac =>
    if ip.all Char.isDigit && frac.all Char.isDigit
        && !(ip.isEmpty && frac.isEmpty) then
      some ((digitsVal ip : ℚ) + (digitsVal frac : ℚ) / (10 ^ frac.length))
    else none

/-- Model of `f64::from_str` on plain decimal literals: optional sign, then
`digits [. digits]`.  (The exotic forms — exponents, `inf`, `NaN` — are not
exercised by any claim.) -/
def parseF64 (s : String) : Option F64 :=
  match s.data with
  | '-' :: rest => (parseDecimal rest).map (fun q => F64.num (-q))
  | '+' :: rest => (parseDecimal rest).map F64.num
  | cs => (parseDecimal cs).map F64.num

/-! ### The propagation chain (`complex_operation`, lines 231-243) -/

/-- `fn complex_operation`, generalized over the function used at the divide
step so that the short-circuit claim ("the divide step is never evaluated")
is expressible: the concrete pipeline is `complexOperationWith divide`.
Storage (`std::fs::read_to_string("number.txt")`) is the `storage`
parameter; each `match` is the desugaring of one `?` site, converting the
failure via the `From` impl Rust selects there. -/
def complexOperationWith (d : F64 → F64 → Except MathError F64) :
    Except IoError String → Except AppError F64
  | Except.error e => Except.error (AppError.Io e)
  | Except.ok contents =>
    match parseF64 (trimS contents) with
    | none => Except.error (AppError.ParseFloat (trimS contents))
    | some number =>
      match sqrt number with
      | Except.error e => Except.error (AppError.Math e)
      | Except.ok root =>
        match d root (F64.num 10) with
        | Except.error e => Except.error (AppError.Math e)
        | Except.ok result => Except.ok result

/-- `fn complex_operation` (lines 231-243): read text, parse as f64, take
the square root, divide by 10. -/
def complex_operation (storage : Except IoError String) : Except AppError F64 :=
  complexOperationWith divide storage

/-! ### The resilient config loader (`Config`, lines 289-330) -/

/-- `struct Config` (lines 289-294).  `port` is Rust `u16`; the model keeps
it as `Nat`, with the range enforced by `parseU16` (the only parser that
writes it) and by the in-range static default. -/
structure Config where
  debug : Bool
  port : Nat
  host : String
deriving DecidableEq, Repr

/-- The loader state: the three mutable locals `(debug, port, host)` of
`Config::from_file`. -/
abbrev LoaderState := Bool × Nat × String

/-- One iteration of the `for line in contents.lines()` loop of
`Config::from_file` (lines 303-318): split the line on every `=`; skip it
unless that yields exactly two parts; trim key and value; then dispatch on
the key — `debug` takes `value.parse().unwrap_or(false)`, `port` takes
`value.parse()?` (aborting the load on failure), `host` takes the value
verbatim, and unknown keys are ignored. -/
def applyLine (line : String) (st : LoaderState) : Except AppError LoaderState :=
  match splitEq line with
  | [k, v] =>
    if trimS k = "debug" then
      Except.ok ((parseBool (trimS v)).getD false, st.2.1, st.2.2)
    else if trimS k = "port" then
      match parseU16 (trimS v) with
      | some n => Except.ok (st.1, n, st.2.2)
      | none => Except.error (AppError.Parse (trimS v))
    else if trimS k = "host" then Except.ok (st.1, st.2.1, trimS v)
    else Except.ok st
  | _ => Except.ok st

/-- The whole loop of `Config::from_file`: thread the state through
`applyLine`, aborting on the first error (the `?` on the port parse). -/
def applyLines : List String → LoaderState → Except AppError LoaderState
  | [], st => Except.ok st
  | l :: rest, st =>
    match applyLine l st with
    | Except.error e => Except.error e
    | Except.ok st2 => applyLines rest st2

/-- `Config::from_file` (lines 297-321), with Storage as a parameter:
read the text (converting an I/O failure via `From<io::Error>`), start from
the static defaults `debug=false, port=8080, host="localhost"`, run the
line loop, and package the final state. -/
def Config.from_file : Except IoError String → Except AppError Config
  | Except.error e => Except.error (AppError.Io e)
  | Except.ok contents =>
    match applyLines (rustLines contents) (false, 8080, "localhost") with
    | Except.error e => Except.error e
    | Except.ok st => Except.ok ⟨st.1, st.2.1, st.2.2⟩

/-- Split a line at the FIRST `=` only.  This is NOT what the source does;
it is the literal reading of the claim "split on the first `=`", defined
only to compare that reading with the source's behavior. -/
def splitFirstEq (s : String) : List String :=
  let ip := s.data.takeWhile (fun c => c ≠ '=')
  match s.data.dropWhile (fun c => c ≠ '=') with
  | [] => [String.mk ip]
  | _ :: t => [String.mk ip, String.mk t]

/-- A line that the loader recognizes as a port assignment whose value does
not parse as `u16`: exactly two `=`-split parts, trimmed key `port`,
trimmed value rejected by `parseU16`. -/
def badPortLine (l : String) : Bool :=
  match splitEq l with
  | [k, v] => (trimS k == "port") && (parseU16 (trimS v)).isNone
  | _ => false

instance instExceptDecEq {ε α : Type} [DecidableEq ε] [DecidableEq α] :
    DecidableEq (Except ε α) := fun a b =>
  match a, b with
  | Except.error e, Except.error f =>
    if h : e = f then Decidable.isTrue (by rw [h])
    else Decidable.isFalse (fun hc => h (Except.error.inj hc))
  | Except.ok x, Except.ok y =>
    if h : x = y then Decidable.isTrue (by rw [h])
    else Decidable.isFalse (fun hc => h (Except.ok.inj hc))
  | Except.error _, Except.ok _ => Decidable.isFalse (fun hc => Except.noConfusion hc)
  | Except.ok _, Except.error _ => Decidable.isFalse (fun hc => Except.noConfusion hc)

/-! ### Helper lemmas (shared) -/

theorem divide_error_eq (a b : F64) (e : MathError)
    (h : divide a b = Except.error e) : e = MathError.DivisionByZero := by
  unfold divide at h
  by_cases hb : F64.beq b (F64.num 0) = true
  · simp [hb] at h; exact h.symm
  · simp [hb] at h

theorem sqrt_error_eq (x : F64) (e : MathError)
    (h : sqrt x = Except.error e) : e = MathError.NegativeSquareRoot := by
  unfold sqrt at h
  by_cases hx : F64.blt x (F64.num 0) = true
  · simp [hx] at h; exact h.symm
  · simp [hx] at h

theorem applyLine_error_parse (l : String) (st : LoaderState) (e : AppError)
    (h : applyLine l st = Except.error e) : ∃ v, e = AppError.Parse v := by
  unfold applyLine at h
  split at h
  · split at h
    · simp at h
    · split at h
      · split at h
        · simp at h
        · exact ⟨_, (Except.error.inj h).symm⟩
      · split at h <;> simp at h
  · simp at h

theorem applyLines_error_parse (ls : List String) (st : LoaderState) (e : AppError)
    (h : applyLines ls st = Except.error e) : ∃ v, e = AppError.Parse v := by
  induction ls generalizing st with
  | nil => simp [applyLines] at h
  | cons l rest ih =>
    unfold applyLines at h
    split at h
    · rename_i e2 heq
      obtain ⟨v, hv⟩ := applyLine_error_parse l st e2 heq
      exact ⟨v, by rw [← Except.error.inj h]; exact hv⟩
    · exact ih _ h

theorem applyLine_bad_port (l : String) (st : LoaderState)
    (h : badPortLine l = true) :
    ∃ v, applyLine l st = Except.error (AppError.Parse v) := by
  unfold badPortLine at h
  split at h
  · rename_i k v heq
    rw [Bool.and_eq_true, beq_iff_eq, Option.isNone_iff_eq_none] at h
    obtain ⟨hk, hv⟩ := h
    refine ⟨trimS v, ?_⟩
    unfold applyLine
    rw [heq]
    simp [hk, hv]
  · simp at h

theorem applyLines_bad_port (ls : List String) (st : LoaderState)
    (h : ∃ l ∈ ls, badPortLine l = true) :
    ∃ v, applyLines ls st = Except.error (AppError.Parse v) := by
  induction ls generalizing st with
  | nil => simp at h
  | cons l rest ih =>
    rcases h with ⟨l2, hmem, hbad⟩
    rcases List.mem_cons.mp hmem with heq | htail
    · subst heq
      obtain ⟨v, hv⟩ := applyLine_bad_port l2 st hbad
      exact ⟨v, by simp [applyLines, hv]⟩
    · rcases hap : applyLine l st with e | st2
      · obtain ⟨v, hv⟩ := applyLine_error_parse l st e hap
        exact ⟨v, by simp [applyLines, hap, hv]⟩
      · obtain ⟨v, hv⟩ := ih st2 ⟨l2, htail, hbad⟩
        exact ⟨v, by simp [applyLines, hap, hv]⟩

/-! ### Claim theorems -/

/-- C6: `divide a b` fails — and fails with `Domain(DivisionByZero)` —
exactly when `b == 0.0` under IEEE equality; otherwise it returns
`Ok (a / b)`, the floating-point quotient, with no further rejection
(negative or NaN quotients included). -/
theorem divide_contract (a b : F64) :
    (∀ e, divide a b = Except.error e ↔
      (F64.beq b (F64.num 0) = true ∧ e = MathError.DivisionByZero)) ∧
    (F64.beq b (F64.num 0) = false → divide a b = Except.ok (F64.div a b)) := by
  constructor
  · intro e
    constructor
    · intro h
      by_cases hb : F64.beq b (F64.num 0) = true
      · exact ⟨hb, (divide_error_eq a b e h).symm ▸ rfl⟩
      · simp [divide, hb] at h
    · rintro ⟨hb, he⟩
      simp [divide, hb, he]
  · intro hb
    simp [divide, hb]

/-- Witness for C6 at `a = 10`, `b = 2`: the divisor does not compare equal
to zero and the quotient `10 / 2 = 5` is returned as a success. -/
theorem divide_contract_witness :
    divide (F64.num 10) (F64.num 2) = Except.ok (F64.div (F64.num 10) (F64.num 2)) ∧
    F64.div (F64.num 10) (F64.num 2) = F64.num 5 :=
  ⟨(divide_contract (F64.num 10) (F64.num 2)).2 (by norm_num [F64.beq]),
   by norm_num [F64.div]⟩

/-- C7: `sqrt x` fails — and fails with `Domain(NegativeSquareRoot)` —
for every `x < 0` (IEEE less-than; in particular for every negative
rational), returns `Ok` of the principal square root for every `x` not
below zero (on squares `q * q` with `q ≥ 0` the result is exactly `q`),
and admits no other failure outcome. -/
theorem sqrt_contract :
    (∀ x, F64.blt x (F64.num 0) = true →
      sqrt x = Except.error MathError.NegativeSquareRoot) ∧
    (∀ q : ℚ, q < 0 →
      sqrt (F64.num q) = Except.error MathError.NegativeSquareRoot) ∧
    (∀ x, F64.blt x (F64.num 0) = false → sqrt x = Except.ok (F64.sqrtF x)) ∧
    (∀ q : ℚ, 0 ≤ q → sqrt (F64.num (q * q)) = Except.ok (F64.num q)) ∧
    (∀ x e, sqrt x = Except.error e → e = MathError.NegativeSquareRoot) := by
  refine ⟨?_, ?_, ?_, ?_, ?_⟩
  · intro x h
    simp [sqrt, h]
  · intro q h
    simp [sqrt, F64.blt, h]
  · intro x h
    simp [sqrt, h]
  · intro q h
    have h1 : ¬ (q * q < 0) := not_lt.mpr (mul_self_nonneg q)
    simp [sqrt, F64.blt, F64.sqrtF, h1, Rat.sqrt_eq, abs_of_nonneg h]
  · exact sqrt_error_eq

/-- Witness for C7: `sqrt (4 * 4) = Ok 4` and `sqrt (-4)` fails with
`NegativeSquareRoot`. -/
theorem sqrt_contract_witness :
    sqrt (F64.num (4 * 4)) = Except.ok (F64.num 4) ∧
    sqrt (F64.num (-4)) = Except.error MathError.NegativeSquareRoot :=
  ⟨sqrt_contract.2.2.2.1 4 (by norm_num), sqrt_contract.2.1 (-4) (by norm_num)⟩

/-- C10: NaN inputs never trip the guards: `sqrt NaN = Ok NaN` because
`NaN < 0` is false under IEEE comparison, and `divide a NaN = Ok NaN` for
every `a` because `NaN == 0` is false. -/
theorem nan_contract :
    sqrt F64.nan = Except.ok F64.nan ∧
    (∀ a, divide a F64.nan = Except.ok F64.nan) ∧
    F64.blt F64.nan (F64.num 0) = false ∧
    F64.beq F64.nan (F64.num 0) = false := by
  refine ⟨rfl, ?_, rfl, rfl⟩
  intro a
  cases a <;> rfl

/-- C1: in the concrete pipeline, for every stored text whose (trimmed)
content parses to a negative number, the sqrt step fails, its failure is
converted to `Math (NegativeSquareRoot)` (the spec's
`Domain(NegativeSquareRoot)`), that converted error is the whole chain's
result, and the divide step is never evaluated: the result is the same for
EVERY function `d` in the divide position. -/
theorem pipeline_neg_shortcircuit (s : String) (q : ℚ)
    (hp : parseF64 (trimS s) = some (F64.num q)) (hq : q < 0)
    (d : F64 → F64 → Except MathError F64) :
    complexOperationWith d (Except.ok s) =
      Except.error (AppError.Math MathError.NegativeSquareRoot) ∧
    complex_operation (Except.ok s) =
      Except.error (AppError.Math MathError.NegativeSquareRoot) := by
  have hs : sqrt (F64.num q) = Except.error MathError.NegativeSquareRoot := by
    simp [sqrt, F64.blt, hq]
  have h1 : ∀ f, complexOperationWith f (Except.ok s) =
      Except.error (AppError.Math MathError.NegativeSquareRoot) := by
    intro f
    simp only [complexOperationWith, hp, hs]
  exact ⟨h1 d, h1 divide⟩

/-- Witness for C1 at stored text `"-4"` (which parses to `-4`), with an
arbitrary replacement for the divide step. -/
theorem pipeline_neg_shortcircuit_witness :
    complex_operation (Except.ok "-4") =
      Except.error (AppError.Math MathError.NegativeSquareRoot) :=
  (pipeline_neg_shortcircuit "-4" (-4) rfl (by norm_num)
    (fun _ _ => Except.ok (F64.num 0))).2

/-- C8: the `Overflow` variant is unreachable at the public interface:
no input makes `divide`, `sqrt`, the pipeline, or the config loader return
an error containing `MathError.Overflow`. -/
theorem overflow_unreachable (a b x : F64) (st : Except IoError String) :
    divide a b ≠ Except.error MathError.Overflow ∧
    sqrt x ≠ Except.error MathError.Overflow ∧
    complex_operation st ≠ Except.error (AppError.Math MathError.Overflow) ∧
    Config.from_file st ≠ Except.error (AppError.Math MathError.Overflow) := by
  refine ⟨?_, ?_, ?_, ?_⟩
  · intro h
    exact absurd (divide_error_eq a b _ h) (by decide)
  · intro h
    exact absurd (sqrt_error_eq x _ h) (by decide)
  · intro h
    cases st with
    | error e => simp [complex_operation, complexOperationWith] at h
    | ok s =>
      rcases hp : parseF64 (trimS s) with _ | number
      · simp [complex_operation, complexOperationWith, hp] at h
      · rcases hs : sqrt number with e2 | root
        · have he2 := sqrt_error_eq _ _ hs
          simp [complex_operation, complexOperationWith, hp, hs, he2] at h
        · rcases hd : divide root (F64.num 10) with e2 | result
          · have he2 := divide_error_eq _ _ _ hd
            simp [complex_operation, complexOperationWith, hp, hs, hd, he2] at h
          · simp [complex_operation, complexOperationWith, hp, hs, hd] at h
  · intro h
    cases st with
    | error e => simp [Config.from_file] at h
    | ok s =>
      rcases ha : applyLines (rustLines s) (false, 8080, "localhost") with e2 | st2
      · obtain ⟨v, hv⟩ := applyLines_error_parse _ _ _ ha
        simp [Config.from_file, ha, hv] at h
      · simp [Config.from_file, ha] at h

/-- Witness for C8 at concrete inputs (divisor 0, argument -1, storage
text `"-4"`). -/
theorem overflow_unreachable_witness :
    divide (F64.num 1) (F64.num 0) ≠ Except.error MathError.Overflow ∧
    Config.from_file (Except.ok "port=bad") ≠
      Except.error (AppError.Math MathError.Overflow) :=
  ⟨(overflow_unreachable (F64.num 1) (F64.num 0) (F64.num (-1)) (Except.ok "-4")).1,
   (overflow_unreachable (F64.num 1) (F64.num 0) (F64.num (-1)) (Except.ok "port=bad")).2.2.2⟩

/-- C2: any input text containing a `port` line whose value does not parse
as `u16` makes the whole load abort with a `Parse`-kind failure — never a
Config with a defaulted port. -/
theorem config_bad_port_hard_fail (s : String)
    (h : ∃ l ∈ rustLines s, badPortLine l = true) :
    ∃ v, Config.from_file (Except.ok s) = Except.error (AppError.Parse v) := by
  obtain ⟨v, hv⟩ := applyLines_bad_port (rustLines s) (false, 8080, "localhost") h
  exact ⟨v, by simp [Config.from_file, hv]⟩

/-- Witness for C2 at input `"port=notanumber"`. -/
theorem config_bad_port_hard_fail_witness :
    ∃ v, Config.from_file (Except.ok "port=notanumber") =
      Except.error (AppError.Parse v) :=
  config_bad_port_hard_fail "port=notanumber"
    ⟨"port=notanumber", by decide, by decide⟩

/-- C3: a `debug` line whose value does not parse as a boolean never aborts
the load — the loop continues with `debug` set to the fallback `false` —
and concretely `"debug=notabool\nport=3000"` loads as
`Config{debug:false, port:3000, host:"localhost"}`. -/
theorem config_debug_soft_fail (l k v : String) (rest : List String)
    (st : LoaderState) (hsp : splitEq l = [k, v]) (hk : trimS k = "debug")
    (hv : parseBool (trimS v) = none) :
    applyLines (l :: rest) st = applyLines rest (false, st.2.1, st.2.2) ∧
    Config.from_file (Except.ok "debug=notabool\nport=3000") =
      Except.ok ⟨false, 3000, "localhost"⟩ := by
  have hl : applyLine l st = Except.ok (false, st.2.1, st.2.2) := by
    unfold applyLine
    rw [hsp]
    simp [hk, hv]
  exact ⟨by simp [applyLines, hl], by decide⟩

/-- Witness for C3 at the line `"debug=notabool"` (from a state whose
debug field was `true`). -/
theorem config_debug_soft_fail_witness :
    applyLines ["debug=notabool"] (true, 9999, "h") =
      applyLines [] (false, 9999, "h") ∧
    Config.from_file (Except.ok "debug=notabool\nport=3000") =
      Except.ok ⟨false, 3000, "localhost"⟩ :=
  config_debug_soft_fail "debug=notabool" "debug" "notabool" [] (true, 9999, "h")
    (by decide) (by decide) (by decide)

/-- C4 as stated is false: the loader does NOT split on the first `=` only —
it splits on every `=` and keeps a line only when that yields exactly two
parts.  At input `"host=a=b"`, splitting on the first `=` yields the two
parts `["host", "a=b"]`, so the claim's reading would process the line and
set `host` to `"a=b"`; the code instead gets three parts, skips the line,
and leaves `host` at `"localhost"`. -/
theorem config_split_counterexample :
    splitFirstEq "host=a=b" = ["host", "a=b"] ∧
    splitEq "host=a=b" = ["host", "a", "b"] ∧
    Config.from_file (Except.ok "host=a=b") =
      Except.ok ⟨false, 8080, "localhost"⟩ ∧
    Config.from_file (Except.ok "host=a=b") ≠
      Except.ok ⟨false, 8080, "a=b"⟩ := by decide

/-- C4 amended: the loader splits each line on EVERY `=` and silently skips
(without error) any line for which that does not yield exactly two parts,
leaving the fields unchanged (hence at their static defaults when no other
line sets them); in particular `"debug=true\ngarbage-line\nport=3000"`
yields `Config{debug:true, port:3000, host:"localhost"}`. -/
theorem config_malformed_line_skip (l : String) (rest : List String)
    (st : LoaderState) (h : (splitEq l).length ≠ 2) :
    applyLines (l :: rest) st = applyLines rest st ∧
    Config.from_file (Except.ok "debug=true\ngarbage-line\nport=3000") =
      Except.ok ⟨true, 3000, "localhost"⟩ := by
  have hl : applyLine l st = Except.ok st := by
    unfold applyLine
    rcases hsp : splitEq l with _ | ⟨k, _ | ⟨v, _ | ⟨c, tl⟩⟩⟩
    · rfl
    · rfl
    · exact absurd (by rw [hsp]; rfl : (splitEq l).length = 2) h
    · rfl
  exact ⟨by simp [applyLines, hl], by decide⟩

/-- Witness for C4's amended claim at the separator-free line
`"garbage-line"`. -/
theorem config_malformed_line_skip_witness :
    applyLines ["garbage-line"] (true, 1, "a") =
      applyLines [] (true, 1, "a") ∧
    Config.from_file (Except.ok "debug=true\ngarbage-line\nport=3000") =
      Except.ok ⟨true, 3000, "localhost"⟩ :=
  config_malformed_line_skip "garbage-line" [] (true, 1, "a") (by decide)

/-- C5 as stated is false: a `host` value containing `=` is NOT accepted —
the whole line then splits into more than two parts and is skipped, leaving
`host` at its previous value (`"localhost"` here), not set to the value
text. -/
theorem host_eq_value_counterexample :
    Config.from_file (Except.ok "host=x=y") =
      Except.ok ⟨false, 8080, "localhost"⟩ ∧
    Config.from_file (Except.ok "host=x=y") ≠
      Except.ok ⟨false, 8080, "x=y"⟩ ∧
    Config.from_file (Except.ok "host=x=y") ≠
      Except.ok ⟨false, 8080, "y"⟩ := by decide

/-- C5 amended: on every line that survives the exactly-two-parts rule and
whose trimmed key is `host` (so the value text contains no `=`), the
trimmed value is accepted verbatim into the host field and the load
continues — the host branch can never fail the load; a host line whose
value contains `=` is instead skipped whole. -/
theorem host_verbatim_contract (l k v : String) (rest : List String)
    (st : LoaderState) (hsp : splitEq l = [k, v]) (hk : trimS k = "host") :
    applyLines (l :: rest) st = applyLines rest (st.1, st.2.1, trimS v) ∧
    Config.from_file (Except.ok "host=  myhost  ") =
      Except.ok ⟨false, 8080, "myhost"⟩ := by
  have hl : applyLine l st = Except.ok (st.1, st.2.1, trimS v) := by
    unfold applyLine
    rw [hsp]
    simp [hk]
  exact ⟨by simp [applyLines, hl], by decide⟩

/-- Witness for C5's amended claim at the line `"host=  myhost  "`. -/
theorem host_verbatim_contract_witness :
    applyLines ["host=  myhost  "] (true, 1, "a") =
      applyLines [] (true, 1, "myhost") ∧
    Config.from_file (Except.ok "host=  myhost  ") =
      Except.ok ⟨false, 8080, "myhost"⟩ :=
  host_verbatim_contract "host=  myhost  " "host" "  myhost  " [] (true, 1, "a")
    (by decide) (by decide)

/-- C9: when the same key appears on several well-formed lines, the last
occurrence determines the final field value: processing a recognized line
discards the previous value of that line's field (for each of the three
keys), and concretely a later unparsable `debug` line overwrites an
earlier valid one with the fallback:
`"debug=true\ndebug=notabool\nport=3000"` yields `debug=false`. -/
theorem last_occurrence_wins (l k v : String) (rest : List String)
    (d1 d2 : Bool) (p1 p2 : Nat) (h1 h2 : String) (hsp : splitEq l = [k, v]) :
    (trimS k = "debug" →
      applyLines (l :: rest) (d1, p1, h1) = applyLines (l :: rest) (d2, p1, h1)) ∧
    (trimS k = "port" →
      applyLines (l :: rest) (d1, p1, h1) = applyLines (l :: rest) (d1, p2, h1)) ∧
    (trimS k = "host" →
      applyLines (l :: rest) (d1, p1, h1) = applyLines (l :: rest) (d1, p1, h2)) ∧
    Config.from_file (Except.ok "debug=true\ndebug=notabool\nport=3000") =
      Except.ok ⟨false, 3000, "localhost"⟩ := by
  refine ⟨?_, ?_, ?_, by decide⟩
  · intro hk
    have he : applyLine l (d1, p1, h1) = applyLine l (d2, p1, h1) := by
      unfold applyLine; rw [hsp]; simp [hk]
    simp [applyLines, he]
  · intro hk
    have he : applyLine l (d1, p1, h1) = applyLine l (d1, p2, h1) := by
      unfold applyLine; rw [hsp]; simp [hk]
    simp [applyLines, he]
  · intro hk
    have he : applyLine l (d1, p1, h1) = applyLine l (d1, p1, h2) := by
      unfold applyLine; rw [hsp]; simp [hk]
    simp [applyLines, he]

/-- Witness for C9 at the line `"port=1"` (differing previous port values)
and the concrete debug-overwrite input. -/
theorem last_occurrence_wins_witness :
    applyLines ["port=1"] (true, 1, "a") = applyLines ["port=1"] (true, 2, "a") ∧
    Config.from_file (Except.ok "debug=true\ndebug=notabool\nport=3000") =
      Except.ok ⟨false, 3000, "localhost"⟩ :=
  ⟨(last_occurrence_wins "port=1" "port" "1" [] true false 1 2 "a" "b"
      (by decide)).2.1 (by decide),
   (last_occurrence_wins "port=1" "port" "1" [] true false 1 2 "a" "b"
      (by decide)).2.2.2⟩

end ErrorHandling
